import Mathlib

/-!
# Verification of the vehicle-catalog core (`auto.py`)

Shallow embedding of the core of the repository: the typed attribute
classes (`ModelCharacteristic` and its subclasses), the attribute factory
(`ModelCharacteristicBuilder`), the domain objects (`Model`,
`Manufacturer`), the row-to-model builder (`ModelBuilder.build`) and the
dataset parser (`DatasetReader.read`).

Python dictionaries are modelled as insertion-ordered association lists
(`dictLookup` is `d[k]` returning `Option`, `dictUpdate` is
`d.update({k: v})`: replace in place when the key is present, append
otherwise).  Python exceptions are modelled with `Except PyError`;
`PyError.keyError k` is a failed dictionary lookup and `PyError.indexError`
a failed list indexing.  `str.split()` (split on whitespace runs,
dropping empty pieces) is `pySplit`, and `' '.join(--)` is
`String.intercalate " "`.  The tabular source handed to
`DatasetReader.read` is modelled as the list of its records, each a list
of cell strings, exactly what `csv.reader` yields.
-/

/-- Python exceptions raised by the core: `KeyError` from a dictionary
lookup and `IndexError` from list indexing. -/
inductive PyError where
  | keyError (key : String)
  | indexError
deriving DecidableEq, Repr

instance {ε α : Type} [DecidableEq ε] [DecidableEq α] : DecidableEq (Except ε α) := fun a b =>
  match a, b with
  | .ok x, .ok y =>
    if h : x = y then isTrue (by rw [h]) else isFalse (fun hc => h (Except.ok.inj hc))
  | .ok _, .error _ => isFalse (fun hc => Except.noConfusion hc)
  | .error _, .ok _ => isFalse (fun hc => Except.noConfusion hc)
  | .error x, .error y =>
    if h : x = y then isTrue (by rw [h]) else isFalse (fun hc => h (Except.error.inj hc))

/-- `d[k]` on a Python dict, returning `none` instead of raising. -/
def dictLookup {α : Type} : List (String × α) → String → Option α
  | [], _ => none
  | (k, v) :: rest, key => if k = key then some v else dictLookup rest key

/-- Python dict update, `d.update({k: v})`: replace the value in place
when the key is present (keeping its position), append otherwise. -/
def dictUpdate {α : Type} : List (String × α) → String → α → List (String × α)
  | [], key, v => [(key, v)]
  | (k, w) :: rest, key, v =>
    if k = key then (key, v) :: rest else (k, w) :: dictUpdate rest key v

/-- `str.split()` with no separator: split on runs of whitespace and drop
empty pieces.  `cur` holds the characters of the current token, reversed. -/
def pySplitAux : List Char → List Char → List String
  | [], [] => []
  | [], cur => [String.mk cur.reverse]
  | c :: cs, cur =>
    if c.isWhitespace then
      match cur with
      | [] => pySplitAux cs []
      | _ :: _ => String.mk cur.reverse :: pySplitAux cs []
    else pySplitAux cs (c :: cur)

/-- Python `s.split()`. -/
def pySplit (s : String) : List String := pySplitAux s.data []

/- The `UnitOfMeasures` constants of the source. -/
namespace UnitOfMeasures

def MPG : String := "mpg"

def CC : String := "cc"

def HP : String := "hp"

def KG : String := "kg"

def SECONDS : String := "secs"

end UnitOfMeasures

/-- The `ModelCharacteristic` class hierarchy: one constructor per
concrete subclass, each holding the raw `value` passed to its
constructor.  `MilesPerGallon`, `Displacement`, `HorsePower`, `Weight`
and `Acceleration` extend `ComplexModelCharacteristic` (unit-bearing);
`NumberOfCylinders` and `Year` extend `SimpleModelCharacteristic`
(no unit). -/
inductive ModelCharacteristic where
  | milesPerGallon (value : String)
  | numberOfCylinders (value : String)
  | displacement (value : String)
  | horsePower (value : String)
  | weight (value : String)
  | acceleration (value : String)
  | year (value : String)
deriving DecidableEq, Repr

namespace ModelCharacteristic

/-- `get_value`: the raw value stored by the base-class constructor. -/
def get_value : ModelCharacteristic → String
  | milesPerGallon v => v
  | numberOfCylinders v => v
  | displacement v => v
  | horsePower v => v
  | weight v => v
  | acceleration v => v
  | year v => v

/-- `get_unit_of_measure`: the unit each subclass passes to the base
constructor (`None` for the `SimpleModelCharacteristic` subclasses). -/
def get_unit_of_measure : ModelCharacteristic → Option String
  | milesPerGallon _ => some UnitOfMeasures.MPG
  | numberOfCylinders _ => none
  | displacement _ => some UnitOfMeasures.CC
  | horsePower _ => some UnitOfMeasures.HP
  | weight _ => some UnitOfMeasures.KG
  | acceleration _ => some UnitOfMeasures.SECONDS
  | year _ => none

/-- `get_meaningful_value`: `SimpleModelCharacteristic` returns the raw
value, `ComplexModelCharacteristic` returns `f-string value unit`,
that is `value ++ " " ++ unit`. -/
def get_meaningful_value : ModelCharacteristic → String
  | milesPerGallon v => v ++ " " ++ UnitOfMeasures.MPG
  | numberOfCylinders v => v
  | displacement v => v ++ " " ++ UnitOfMeasures.CC
  | horsePower v => v ++ " " ++ UnitOfMeasures.HP
  | weight v => v ++ " " ++ UnitOfMeasures.KG
  | acceleration v => v ++ " " ++ UnitOfMeasures.SECONDS
  | year v => v

end ModelCharacteristic

/-- `bool(c)` for `c` a Python class object: always `True`.  This models
the truthiness test of the `if characteristic:` guard in
`ModelCharacteristicBuilder.build`, whose scrutinee is the class looked
up in `CHARACTERISTICS_DICT`. -/
def classTruthy (_c : String → ModelCharacteristic) : Bool := true

namespace ModelCharacteristicBuilder

/-- `ModelCharacteristicBuilder.CHARACTERISTICS_DICT`: column name to
characteristic class, in source order. -/
def CHARACTERISTICS_DICT : List (String × (String → ModelCharacteristic)) :=
  [("mpg", ModelCharacteristic.milesPerGallon),
   ("cylinders", ModelCharacteristic.numberOfCylinders),
   ("displacement", ModelCharacteristic.displacement),
   ("horsepower", ModelCharacteristic.horsePower),
   ("weight", ModelCharacteristic.weight),
   ("acceleration", ModelCharacteristic.acceleration),
   ("year", ModelCharacteristic.year)]

/-- `ModelCharacteristicBuilder.build(characteristic_name, value)`:
the dictionary indexing raises `KeyError` for an unknown name; on a hit,
the `if characteristic:` guard tests the truthiness of the class and its
else branch returns `None` (hence the `Option` in the result). -/
def build (characteristic_name : String) (value : String) :
    Except PyError (Option ModelCharacteristic) :=
  match dictLookup CHARACTERISTICS_DICT characteristic_name with
  | none => .error (.keyError characteristic_name)
  | some characteristic =>
    if classTruthy characteristic then .ok (some (characteristic value))
    else .ok none

end ModelCharacteristicBuilder

/-- The `Model` class: display name, a non-owning reference to its
manufacturer (by brand, the manufacturer's identity), and the ordered
characteristics list (elements are `Option` because
`ModelCharacteristicBuilder.build` is typed as possibly returning
`None`). -/
structure Model where
  model_name : String
  manufacturer : String
  characteristics : List (Option ModelCharacteristic)
deriving DecidableEq, Repr

/-- The `Manufacturer` class: brand plus its append-only model list. -/
structure Manufacturer where
  brand : String
  models : List Model
deriving DecidableEq, Repr

/-- `Manufacturer.add_model`: append to the model list. -/
def Manufacturer.add_model (m : Manufacturer) (model : Model) : Manufacturer :=
  { m with models := m.models ++ [model] }

/-- The registry: a Python dict from brand name to `Manufacturer`. -/
abbrev Registry := List (String × Manufacturer)

/-- A keyword-argument dict (`kwargs`), as built by `DatasetReader`. -/
abbrev Kwargs := List (String × String)

/-- The characteristics loop of `ModelBuilder.build`: iterate over
`kwargs.items()` in insertion order, skip the `name` key, call the
characteristic factory on every other pair and append the result.  An
exception from the factory aborts the loop. -/
def buildCharacteristics : Kwargs → Except PyError (List (Option ModelCharacteristic))
  | [] => .ok []
  | (key, value) :: rest =>
    if key = "name" then buildCharacteristics rest
    else
      match ModelCharacteristicBuilder.build key value with
      | .error e => .error e
      | .ok characteristic =>
        match buildCharacteristics rest with
        | .error e => .error e
        | .ok cs => .ok (characteristic :: cs)

namespace ModelBuilder

/-- `ModelBuilder.build(registry, **kwargs)`:
`kwargs['name']` (a `KeyError` when absent), `split()`, `name_parts[0]`
(an `IndexError` on an empty split), get-or-create of the manufacturer
(the new manufacturer is inserted into the registry before the
characteristics loop runs), then the characteristics loop, model
construction and `add_model`.  The mutation of the manufacturer object
aliased inside the registry is rendered as the final `dictUpdate`. -/
def build (registry : Registry) (kwargs : Kwargs) : Except PyError Registry :=
  match dictLookup kwargs "name" with
  | none => .error (.keyError "name")
  | some nameField =>
    match pySplit nameField with
    | [] => .error .indexError
    | brand :: restParts =>
      let model_name := String.intercalate " " restParts
      let pair :=
        match dictLookup registry brand with
        | some m => (m, registry)
        | none =>
          let m : Manufacturer := ⟨brand, []⟩
          (m, dictUpdate registry brand m)
      match buildCharacteristics kwargs with
      | .error e => .error e
      | .ok characteristics =>
        let model : Model := ⟨model_name, brand, characteristics⟩
        .ok (dictUpdate pair.2 brand (pair.1.add_model model))

end ModelBuilder

/-- The inner loop of `DatasetReader.read` over one record: pair
`header[item_count]` with each cell in order, building `representation`
by `dict.update`; `header[item_count]` raises `IndexError` when the
record has more cells than the header. -/
def representationLoop (header : List String) :
    List String → Nat → Kwargs → Except PyError Kwargs
  | [], _, representation => .ok representation
  | item :: rest, item_count, representation =>
    match header.get? item_count with
    | none => .error .indexError
    | some h => representationLoop header rest (item_count + 1) (dictUpdate representation h item)

/-- The body of `DatasetReader.read`'s loop for one data record: build
the representation, then delegate to `ModelBuilder.build`. -/
def processRecord (header : List String) (registry : Registry) (row : List String) :
    Except PyError Registry :=
  match representationLoop header row 0 [] with
  | .error e => .error e
  | .ok representation => ModelBuilder.build registry representation

/-- The record loop of `DatasetReader.read` after the header record. -/
def readLoop (header : List String) : List (List String) → Registry → Except PyError Registry
  | [], registry => .ok registry
  | row :: rest, registry =>
    match processRecord header registry row with
    | .error e => .error e
    | .ok registry1 => readLoop header rest registry1

namespace DatasetReader

/-- `DatasetReader.read`: start from the empty registry, treat the first
record as the header and drive `ModelBuilder.build` once per remaining
record.  The source is modelled as its list of records. -/
def read (rows : List (List String)) : Except PyError Registry :=
  match rows with
  | [] => .ok []
  | header :: dataRows => readLoop header dataRows []

end DatasetReader

/-!
## Dictionary lemmas
-/

theorem dictLookup_dictUpdate_self {α : Type} (d : List (String × α)) (k : String) (v : α) :
    dictLookup (dictUpdate d k v) k = some v := by
  induction d with
  | nil => simp [dictUpdate, dictLookup]
  | cons p rest ih =>
    obtain ⟨k1, v1⟩ := p
    by_cases h : k1 = k
    · simp [dictUpdate, dictLookup, h]
    · simp [dictUpdate, dictLookup, h, ih]

theorem dictLookup_dictUpdate_ne {α : Type} (d : List (String × α)) (k k1 : String) (v : α)
    (h : k1 ≠ k) : dictLookup (dictUpdate d k v) k1 = dictLookup d k1 := by
  induction d with
  | nil =>
    simp only [dictUpdate, dictLookup]
    rw [if_neg (fun hc : k = k1 => h hc.symm)]
  | cons p rest ih =>
    obtain ⟨k2, v2⟩ := p
    simp only [dictUpdate]
    by_cases h2 : k2 = k
    · subst h2
      simp only [if_pos rfl, dictLookup]
      rw [if_neg (fun hc : k2 = k1 => h hc.symm), if_neg (fun hc : k2 = k1 => h hc.symm)]
    · simp only [if_neg h2, dictLookup]
      by_cases h3 : k2 = k1
      · simp [h3]
      · simp [h3, ih]

theorem dictUpdate_dictUpdate {α : Type} (d : List (String × α)) (k : String) (v w : α) :
    dictUpdate (dictUpdate d k v) k w = dictUpdate d k w := by
  induction d with
  | nil => simp [dictUpdate]
  | cons p rest ih =>
    obtain ⟨k1, v1⟩ := p
    by_cases h : k1 = k
    · simp [dictUpdate, h]
    · simp [dictUpdate, h, ih]

theorem dictUpdate_of_lookup_none {α : Type} (d : List (String × α)) (k : String) (v : α)
    (h : dictLookup d k = none) : dictUpdate d k v = d ++ [(k, v)] := by
  induction d with
  | nil => simp [dictUpdate]
  | cons p rest ih =>
    obtain ⟨k1, v1⟩ := p
    by_cases h1 : k1 = k
    · simp [dictLookup, h1] at h
    · simp [dictLookup, h1] at h
      simp [dictUpdate, h1, ih h]

theorem dictLookup_eq_none_iff {α : Type} (d : List (String × α)) (k : String) :
    dictLookup d k = none ↔ k ∉ d.map Prod.fst := by
  induction d with
  | nil => simp [dictLookup]
  | cons p rest ih =>
    obtain ⟨k1, v1⟩ := p
    simp only [dictLookup, List.map_cons, List.mem_cons]
    by_cases h1 : k1 = k
    · subst h1
      simp
    · rw [if_neg h1, ih]
      have hk : ¬ k = k1 := fun hc => h1 hc.symm
      simp [hk]

theorem keys_dictUpdate_of_lookup_some {α : Type} (d : List (String × α)) (k : String) (v w : α)
    (h : dictLookup d k = some w) :
    (dictUpdate d k v).map Prod.fst = d.map Prod.fst := by
  induction d with
  | nil => simp [dictLookup] at h
  | cons p rest ih =>
    obtain ⟨k1, v1⟩ := p
    by_cases h1 : k1 = k
    · simp [dictUpdate, h1]
    · simp [dictLookup, h1] at h
      simp [dictUpdate, h1, ih h]

theorem nodup_keys_dictUpdate {α : Type} (d : List (String × α)) (k : String) (v : α)
    (h : (d.map Prod.fst).Nodup) : ((dictUpdate d k v).map Prod.fst).Nodup := by
  cases hl : dictLookup d k with
  | none =>
    rw [dictUpdate_of_lookup_none d k v hl]
    rw [dictLookup_eq_none_iff] at hl
    rw [List.map_append]
    refine List.Nodup.append h (by simp) ?dis
    intro a ha hb
    simp only [List.map_cons, List.map_nil, List.mem_singleton] at hb
    subst hb
    exact hl ha
  | some w => rw [keys_dictUpdate_of_lookup_some d k v w hl]; exact h

/-!
## Row-level decomposition of `ModelBuilder.build`

`rowSpec` isolates the registry-independent part of a row build: the
brand, the display name and the characteristics, exactly as
`ModelBuilder.build` computes them.
-/

/-- The registry-independent part of `ModelBuilder.build` on one row:
the brand and the model the row constructs, or the exception it
raises. -/
def rowSpec (kwargs : Kwargs) : Except PyError (String × Model) :=
  match dictLookup kwargs "name" with
  | none => .error (.keyError "name")
  | some nameField =>
    match pySplit nameField with
    | [] => .error .indexError
    | brand :: restParts =>
      match buildCharacteristics kwargs with
      | .error e => .error e
      | .ok cs => .ok (brand, ⟨String.intercalate " " restParts, brand, cs⟩)

/-- The first whitespace-delimited token of the row's name field, when
the row has one. -/
def rowBrand (kwargs : Kwargs) : Option String :=
  (dictLookup kwargs "name").bind (fun nameField => (pySplit nameField).head?)

theorem build_eq_rowSpec (registry : Registry) (kwargs : Kwargs) :
    ModelBuilder.build registry kwargs =
      match rowSpec kwargs with
      | .error e => .error e
      | .ok (b, m) =>
        .ok (dictUpdate registry b
              (((dictLookup registry b).getD ⟨b, []⟩).add_model m)) := by
  unfold ModelBuilder.build rowSpec
  cases hn : dictLookup kwargs "name" with
  | none => simp only [hn]
  | some nameField =>
    simp only [hn]
    cases hs : pySplit nameField with
    | nil => simp only [hs]
    | cons brand restParts =>
      simp only [hs]
      cases hc : buildCharacteristics kwargs with
      | error e => simp only [hc]
      | ok cs =>
        simp only [hc]
        cases hl : dictLookup registry brand with
        | some m => simp only [hl, Option.getD_some]
        | none =>
          simp only [hl, Option.getD_none]
          rw [dictUpdate_dictUpdate]

theorem rowSpec_brand (kwargs : Kwargs) (b : String) (m : Model)
    (h : rowSpec kwargs = .ok (b, m)) : rowBrand kwargs = some b := by
  unfold rowSpec at h
  unfold rowBrand
  cases hn : dictLookup kwargs "name" with
  | none => simp [hn] at h
  | some nameField =>
    simp only [hn] at h ⊢
    cases hs : pySplit nameField with
    | nil => simp [hs] at h
    | cons brand restParts =>
      simp only [hs] at h ⊢
      cases hc : buildCharacteristics kwargs with
      | error e => simp [hc] at h
      | ok cs =>
        simp only [hc] at h
        cases h
        simp [hs]

/-!
## Accumulation over many rows
-/

/-- `ModelBuilder.build` folded over a list of rows, as `DatasetReader`
drives it: an exception from any row aborts the whole run. -/
def buildAll (rows : List Kwargs) (registry : Registry) : Except PyError Registry :=
  match rows with
  | [] => .ok registry
  | kw :: rest =>
    match ModelBuilder.build registry kw with
    | .error e => .error e
    | .ok registry1 => buildAll rest registry1

/-- The models contributed to brand `b` by a list of rows, in source
order: one model per row whose brand is `b`. -/
def brandModels (rows : List Kwargs) (b : String) : List Model :=
  rows.filterMap (fun kw =>
    match rowSpec kw with
    | .ok (b1, m) => if b1 = b then some m else none
    | .error _ => none)

theorem dictLookup_mem {α : Type} (d : List (String × α)) (k : String) (v : α)
    (h : dictLookup d k = some v) : (k, v) ∈ d := by
  induction d with
  | nil => simp [dictLookup] at h
  | cons q rest ih =>
    obtain ⟨k1, v1⟩ := q
    by_cases h1 : k1 = k
    · subst h1
      simp [dictLookup] at h
      subst h
      exact List.mem_cons_self _ _
    · simp only [dictLookup, if_neg h1] at h
      exact List.mem_cons_of_mem _ (ih h)

theorem mem_dictUpdate {α : Type} (d : List (String × α)) (k : String) (v : α) (p : String × α)
    (hp : p ∈ dictUpdate d k v) : p = (k, v) ∨ p ∈ d := by
  induction d with
  | nil =>
    simp only [dictUpdate, List.mem_singleton] at hp
    exact Or.inl hp
  | cons q rest ih =>
    obtain ⟨k1, v1⟩ := q
    by_cases h : k1 = k
    · rw [dictUpdate, if_pos h] at hp
      rcases List.mem_cons.mp hp with h2 | h2
      · exact Or.inl h2
      · exact Or.inr (List.mem_cons_of_mem _ h2)
    · rw [dictUpdate, if_neg h] at hp
      rcases List.mem_cons.mp hp with h2 | h2
      · exact Or.inr (h2 ▸ List.mem_cons_self _ _)
      · rcases ih h2 with h3 | h3
        · exact Or.inl h3
        · exact Or.inr (List.mem_cons_of_mem _ h3)

/-- Main accumulation lemma: a successful `buildAll` run turns the
registry entry of each brand into the entry's prior models followed by
the models of the rows with that brand, in source order; a brand with no
prior entry and no row stays absent, and key uniqueness plus the
brand-field invariant are preserved. -/
theorem buildAll_ok_lookup (rows : List Kwargs) (reg0 reg : Registry)
    (hok : buildAll rows reg0 = .ok reg) (hnd : (reg0.map Prod.fst).Nodup)
    (hbr : ∀ p ∈ reg0, p.2.brand = p.1) (b : String) :
    ((reg.map Prod.fst).Nodup ∧ ∀ p ∈ reg, p.2.brand = p.1) ∧
    dictLookup reg b =
      (match dictLookup reg0 b with
       | some m => some ⟨b, m.models ++ brandModels rows b⟩
       | none =>
         if (brandModels rows b).isEmpty then none
         else some ⟨b, brandModels rows b⟩) := by
  induction rows generalizing reg0 with
  | nil =>
    simp only [buildAll, Except.ok.injEq] at hok
    subst hok
    refine ⟨⟨hnd, hbr⟩, ?_⟩
    cases hl : dictLookup reg0 b with
    | none => simp [brandModels]
    | some m =>
      have hb := hbr _ (dictLookup_mem _ _ _ hl)
      obtain ⟨mb, mm⟩ := m
      simp only at hb
      subst hb
      simp [brandModels]
  | cons kw rest ih =>
    simp only [buildAll] at hok
    cases hb1 : ModelBuilder.build reg0 kw with
    | error e => rw [hb1] at hok; simp at hok
    | ok reg1 =>
      rw [hb1] at hok
      rw [build_eq_rowSpec] at hb1
      cases hrs : rowSpec kw with
      | error e => rw [hrs] at hb1; simp at hb1
      | ok p =>
        obtain ⟨b1, m1⟩ := p
        rw [hrs] at hb1
        simp only [Except.ok.injEq] at hb1
        have hmfr : (((dictLookup reg0 b1).getD ⟨b1, []⟩) : Manufacturer).brand = b1 := by
          cases hl0 : dictLookup reg0 b1 with
          | none => simp
          | some m0 => simpa using hbr _ (dictLookup_mem _ _ _ hl0)
        have hnd1 : (reg1.map Prod.fst).Nodup := by
          rw [← hb1]; exact nodup_keys_dictUpdate _ _ _ hnd
        have hbr1 : ∀ p ∈ reg1, p.2.brand = p.1 := by
          intro p hp
          rw [← hb1] at hp
          rcases mem_dictUpdate _ _ _ _ hp with h2 | h2
          · subst h2
            simpa [Manufacturer.add_model] using hmfr
          · exact hbr _ h2
        have IH := ih reg1 hok hnd1 hbr1
        refine ⟨IH.1, ?_⟩
        rw [IH.2, ← hb1]
        by_cases hbb : b1 = b
        · subst hbb
          rw [dictLookup_dictUpdate_self]
          have hbm : brandModels (kw :: rest) b1 = m1 :: brandModels rest b1 := by
            simp [brandModels, hrs]
          rw [hbm]
          cases hl0 : dictLookup reg0 b1 with
          | some m0 =>
            simp only [hl0, Option.getD_some, Manufacturer.add_model]
            simp [List.append_assoc]
          | none =>
            simp only [hl0, Option.getD_none, Manufacturer.add_model]
            simp
        · have hbne : b ≠ b1 := fun hc => hbb hc.symm
          rw [dictLookup_dictUpdate_ne _ _ _ _ hbne]
          have hbm : brandModels (kw :: rest) b = brandModels rest b := by
            simp [brandModels, hrs, hbb]
          rw [hbm]

/-- A successful `buildAll` run means every row built successfully. -/
theorem buildAll_ok_rows_ok (rows : List Kwargs) (reg0 reg : Registry)
    (hok : buildAll rows reg0 = .ok reg) :
    ∀ kw ∈ rows, ∃ p, rowSpec kw = .ok p := by
  induction rows generalizing reg0 with
  | nil => simp
  | cons kw rest ih =>
    simp only [buildAll] at hok
    cases hb1 : ModelBuilder.build reg0 kw with
    | error e => rw [hb1] at hok; simp at hok
    | ok reg1 =>
      rw [hb1] at hok
      intro kw2 hkw2
      rcases List.mem_cons.mp hkw2 with h | h
      · subst h
        rw [build_eq_rowSpec] at hb1
        cases hrs : rowSpec kw2 with
        | error e => rw [hrs] at hb1; simp at hb1
        | ok p => exact ⟨p, rfl⟩
      · exact ih reg1 hok kw2 h

/-- On rows that all build, the models of brand `b` are exactly one per
row whose name field starts with token `b`. -/
theorem brandModels_length (rows : List Kwargs) (b : String)
    (hv : ∀ kw ∈ rows, ∃ p, rowSpec kw = .ok p) :
    (brandModels rows b).length =
      (rows.filter (fun kw => decide (rowBrand kw = some b))).length := by
  induction rows with
  | nil => simp [brandModels]
  | cons kw rest ih =>
    obtain ⟨⟨b1, m1⟩, hrs⟩ := hv kw (List.mem_cons_self _ _)
    have hrest : ∀ kw2 ∈ rest, ∃ p, rowSpec kw2 = .ok p :=
      fun kw2 h => hv kw2 (List.mem_cons_of_mem _ h)
    have hbrand := rowSpec_brand _ _ _ hrs
    by_cases hbb : b1 = b
    · subst hbb
      have h1 : brandModels (kw :: rest) b1 = m1 :: brandModels rest b1 := by
        simp [brandModels, hrs]
      have h2 : List.filter (fun kw2 => decide (rowBrand kw2 = some b1)) (kw :: rest) =
          kw :: List.filter (fun kw2 => decide (rowBrand kw2 = some b1)) rest := by
        simp [List.filter_cons, hbrand]
      rw [h1, h2]
      simp only [List.length_cons, ih hrest]
    · have h1 : brandModels (kw :: rest) b = brandModels rest b := by
        simp [brandModels, hrs, hbb]
      have h2 : List.filter (fun kw2 => decide (rowBrand kw2 = some b)) (kw :: rest) =
          List.filter (fun kw2 => decide (rowBrand kw2 = some b)) rest := by
        simp [List.filter_cons, hbrand, hbb]
      rw [h1, h2]
      exact ih hrest

/-!
## Claim theorems
-/

/-- The recognized attribute column names, in the order of
`CHARACTERISTICS_DICT`. -/
def recognizedColumns : List String :=
  ["mpg", "cylinders", "displacement", "horsepower", "weight", "acceleration", "year"]

/-- C1: for every sequence of rows sharing the same first
whitespace-delimited token of the name field, `ModelBuilder.build`
creates exactly one `Manufacturer` in the registry for that brand
(get-or-create), and that manufacturer's model list is the models of
those rows in source order, so its length equals the number of such
rows. -/
theorem c1_one_manufacturer_per_brand (rows : List Kwargs) (reg : Registry) (b : String)
    (hok : buildAll rows [] = .ok reg) :
    (reg.map Prod.fst).Nodup ∧
    dictLookup reg b =
      (if (brandModels rows b).isEmpty then none
       else some ⟨b, brandModels rows b⟩) ∧
    (brandModels rows b).length =
      (rows.filter (fun kw => decide (rowBrand kw = some b))).length := by
  have h := buildAll_ok_lookup rows [] reg hok (by simp) (by simp) b
  refine ⟨h.1.1, ?_, brandModels_length rows b (buildAll_ok_rows_ok rows [] reg hok)⟩
  have h2 := h.2
  simpa [dictLookup] using h2

/-- Witness for C1: two Ford rows accumulate into a single Ford entry
holding both models in source order. -/
theorem c1_one_manufacturer_per_brand_witness :
    buildAll [[("name", "Ford Focus")], [("name", "Ford Fiesta")]] [] =
      .ok [("Ford", ⟨"Ford", [⟨"Focus", "Ford", []⟩, ⟨"Fiesta", "Ford", []⟩]⟩)] ∧
    ((([("Ford", ⟨"Ford", [⟨"Focus", "Ford", []⟩, ⟨"Fiesta", "Ford", []⟩]⟩)] : Registry).map
        Prod.fst).Nodup ∧
    dictLookup
      ([("Ford", ⟨"Ford", [⟨"Focus", "Ford", []⟩, ⟨"Fiesta", "Ford", []⟩]⟩)] : Registry) "Ford" =
      (if (brandModels [[("name", "Ford Focus")], [("name", "Ford Fiesta")]] "Ford").isEmpty
       then none
       else some ⟨"Ford", brandModels [[("name", "Ford Focus")], [("name", "Ford Fiesta")]] "Ford"⟩) ∧
    (brandModels [[("name", "Ford Focus")], [("name", "Ford Fiesta")]] "Ford").length =
      (([[("name", "Ford Focus")], [("name", "Ford Fiesta")]] : List Kwargs).filter
        (fun kw => decide (rowBrand kw = some "Ford"))).length) :=
  ⟨by decide,
   c1_one_manufacturer_per_brand [[("name", "Ford Focus")], [("name", "Ford Fiesta")]]
     [("Ford", ⟨"Ford", [⟨"Focus", "Ford", []⟩, ⟨"Fiesta", "Ford", []⟩]⟩)] "Ford" (by decide)⟩

theorem buildCharacteristics_forall2 (kwargs : Kwargs) (cs : List (Option ModelCharacteristic))
    (h : buildCharacteristics kwargs = .ok cs) :
    List.Forall₂ (fun (p : String × String) c =>
        ModelCharacteristicBuilder.build p.1 p.2 = .ok c)
      (kwargs.filter (fun p => decide (p.1 ≠ "name"))) cs := by
  induction kwargs generalizing cs with
  | nil =>
    simp only [buildCharacteristics, Except.ok.injEq] at h
    subst h
    simp
  | cons p rest ih =>
    obtain ⟨key, value⟩ := p
    by_cases hk : key = "name"
    · subst hk
      simp only [buildCharacteristics, if_pos rfl] at h
      simpa using ih cs h
    · simp only [buildCharacteristics, if_neg hk] at h
      cases hb : ModelCharacteristicBuilder.build key value with
      | error e => rw [hb] at h; simp at h
      | ok c =>
        rw [hb] at h
        cases hrest : buildCharacteristics rest with
        | error e => rw [hrest] at h; simp at h
        | ok cs2 =>
          rw [hrest] at h
          simp only [Except.ok.injEq] at h
          subst h
          have hfc : List.filter (fun p => decide (p.1 ≠ "name")) ((key, value) :: rest) =
              (key, value) :: List.filter (fun p => decide (p.1 ≠ "name")) rest := by
            simp [List.filter_cons, hk]
          rw [hfc]
          exact List.Forall₂.cons hb (ih cs2 hrest)

/-- C2: for every valid row, the model `ModelBuilder.build` constructs
and appends has display name equal to the name field with its first
whitespace-delimited token removed and the rest joined by single spaces,
and one attribute value per non-name field, collected in field iteration
order. -/
theorem c2_model_name_and_attributes (registry : Registry) (kwargs : Kwargs)
    (nameField brand : String) (restParts : List String)
    (cs : List (Option ModelCharacteristic))
    (hname : dictLookup kwargs "name" = some nameField)
    (hsplit : pySplit nameField = brand :: restParts)
    (hcs : buildCharacteristics kwargs = .ok cs) :
    ModelBuilder.build registry kwargs =
      .ok (dictUpdate registry brand
            (((dictLookup registry brand).getD ⟨brand, []⟩).add_model
              ⟨String.intercalate " " restParts, brand, cs⟩)) ∧
    List.Forall₂ (fun (p : String × String) c =>
        ModelCharacteristicBuilder.build p.1 p.2 = .ok c)
      (kwargs.filter (fun p => decide (p.1 ≠ "name"))) cs := by
  constructor
  · rw [build_eq_rowSpec]
    have hrs : rowSpec kwargs =
        .ok (brand, ⟨String.intercalate " " restParts, brand, cs⟩) := by
      unfold rowSpec
      simp [hname, hsplit, hcs]
    rw [hrs]
  · exact buildCharacteristics_forall2 kwargs cs hcs

/-- Witness for C2: a Toyota row with two attribute columns. -/
theorem c2_model_name_and_attributes_witness :
    ModelBuilder.build [] [("name", "Toyota Corolla GT"), ("mpg", "32"), ("year", "1985")] =
      .ok (dictUpdate ([] : Registry) "Toyota"
            (((dictLookup ([] : Registry) "Toyota").getD ⟨"Toyota", []⟩).add_model
              ⟨String.intercalate " " ["Corolla", "GT"], "Toyota",
               [some (.milesPerGallon "32"), some (.year "1985")]⟩)) ∧
    List.Forall₂ (fun (p : String × String) c =>
        ModelCharacteristicBuilder.build p.1 p.2 = .ok c)
      (([("name", "Toyota Corolla GT"), ("mpg", "32"), ("year", "1985")] : Kwargs).filter
        (fun p => decide (p.1 ≠ "name")))
      [some (.milesPerGallon "32"), some (.year "1985")] :=
  c2_model_name_and_attributes [] [("name", "Toyota Corolla GT"), ("mpg", "32"), ("year", "1985")]
    "Toyota Corolla GT" "Toyota" ["Corolla", "GT"]
    [some (.milesPerGallon "32"), some (.year "1985")]
    (by decide) (by decide) (by decide)

/-- C3: for every recognized column name and raw value `v`, the factory
returns an attribute value rendering as the value followed by the unit
(`mpg`, `cc`, `hp`, `kg`, `secs`) for the unit-bearing kinds, and as the
raw value alone for `cylinders` and `year`. -/
theorem c3_rendering (v : String) :
    (ModelCharacteristicBuilder.build "mpg" v = .ok (some (.milesPerGallon v)) ∧
      (ModelCharacteristic.milesPerGallon v).get_meaningful_value = v ++ " " ++ "mpg") ∧
    (ModelCharacteristicBuilder.build "cylinders" v = .ok (some (.numberOfCylinders v)) ∧
      (ModelCharacteristic.numberOfCylinders v).get_meaningful_value = v) ∧
    (ModelCharacteristicBuilder.build "displacement" v = .ok (some (.displacement v)) ∧
      (ModelCharacteristic.displacement v).get_meaningful_value = v ++ " " ++ "cc") ∧
    (ModelCharacteristicBuilder.build "horsepower" v = .ok (some (.horsePower v)) ∧
      (ModelCharacteristic.horsePower v).get_meaningful_value = v ++ " " ++ "hp") ∧
    (ModelCharacteristicBuilder.build "weight" v = .ok (some (.weight v)) ∧
      (ModelCharacteristic.weight v).get_meaningful_value = v ++ " " ++ "kg") ∧
    (ModelCharacteristicBuilder.build "acceleration" v = .ok (some (.acceleration v)) ∧
      (ModelCharacteristic.acceleration v).get_meaningful_value = v ++ " " ++ "secs") ∧
    (ModelCharacteristicBuilder.build "year" v = .ok (some (.year v)) ∧
      (ModelCharacteristic.year v).get_meaningful_value = v) :=
  ⟨⟨rfl, rfl⟩, ⟨rfl, rfl⟩, ⟨rfl, rfl⟩, ⟨rfl, rfl⟩, ⟨rfl, rfl⟩, ⟨rfl, rfl⟩, ⟨rfl, rfl⟩⟩

/-- C4: `ModelCharacteristicBuilder.build` fails, with a `KeyError` on
the column name, exactly when the name is not one of the seven
recognized columns; the `if characteristic:` guard never fires its else
branch, so `build` never returns `None`, and every recognized name
yields a constructed attribute value. -/
theorem c4_lookup_failure_iff_unknown (n v : String) :
    (ModelCharacteristicBuilder.build n v = .error (.keyError n) ↔ n ∉ recognizedColumns) ∧
    ModelCharacteristicBuilder.build n v ≠ .ok none ∧
    (n ∈ recognizedColumns → ∃ c, ModelCharacteristicBuilder.build n v = .ok (some c)) := by
  have hmap : ModelCharacteristicBuilder.CHARACTERISTICS_DICT.map Prod.fst =
      recognizedColumns := rfl
  refine ⟨⟨?_, ?_⟩, ?_, ?_⟩
  · intro h
    rw [← hmap, ← dictLookup_eq_none_iff]
    unfold ModelCharacteristicBuilder.build at h
    cases hl : dictLookup ModelCharacteristicBuilder.CHARACTERISTICS_DICT n with
    | none => rfl
    | some c => rw [hl] at h; simp [classTruthy] at h
  · intro h
    rw [← hmap, ← dictLookup_eq_none_iff] at h
    unfold ModelCharacteristicBuilder.build
    rw [h]
  · unfold ModelCharacteristicBuilder.build
    cases hl : dictLookup ModelCharacteristicBuilder.CHARACTERISTICS_DICT n with
    | none => simp
    | some c => simp [classTruthy]
  · intro hmem
    unfold ModelCharacteristicBuilder.build
    cases hl : dictLookup ModelCharacteristicBuilder.CHARACTERISTICS_DICT n with
    | none =>
      rw [dictLookup_eq_none_iff, hmap] at hl
      exact absurd hmem hl
    | some c => exact ⟨c v, by simp [classTruthy]⟩

/-- Witness for C4: an unknown column fails with a `KeyError` and a
recognized column never yields `None`. -/
theorem c4_lookup_failure_iff_unknown_witness :
    ModelCharacteristicBuilder.build "color" "red" = .error (.keyError "color") ∧
    ModelCharacteristicBuilder.build "mpg" "30" ≠ .ok none :=
  ⟨(c4_lookup_failure_iff_unknown "color" "red").1.mpr (by decide),
   (c4_lookup_failure_iff_unknown "mpg" "30").2.1⟩

/-!
## Record pairing and the read loop
-/

/-- When enough header names remain (from position `i` on), all distinct
and none colliding with the accumulator's keys, the representation loop
appends the positional pairing of the remaining header names with the
record's cells.  A record shorter than the header just gets fewer
pairs. -/
theorem representationLoop_zip (header : List String) (row : List String) (i : Nat)
    (acc : Kwargs) (hlen : row.length ≤ (header.drop i).length)
    (hnd : (header.drop i).Nodup)
    (hdisj : ∀ k ∈ acc.map Prod.fst, k ∉ header.drop i) :
    representationLoop header row i acc = .ok (acc ++ (header.drop i).zip row) := by
  induction row generalizing i acc with
  | nil => simp [representationLoop]
  | cons item rest ih =>
    cases hd : header.drop i with
    | nil =>
      rw [hd] at hlen
      simp at hlen
    | cons h t =>
      have hget : header.get? i = some h := by
        have h0 : (List.drop i header).get? 0 = header.get? (i + 0) := List.get?_drop header i 0
        rw [hd] at h0
        simpa using h0.symm
      have hdrop1 : header.drop (i + 1) = t := by
        have h1 : List.drop 1 (List.drop i header) = List.drop (i + 1) header :=
          List.drop_drop 1 i header
        rw [hd] at h1
        simpa using h1.symm
      have hupd : dictUpdate acc h item = acc ++ [(h, item)] := by
        apply dictUpdate_of_lookup_none
        rw [dictLookup_eq_none_iff]
        intro hmem
        exact hdisj h hmem (hd ▸ List.mem_cons_self _ _)
      have hndt : (header.drop (i + 1)).Nodup := by
        rw [hdrop1]
        rw [hd] at hnd
        exact hnd.of_cons
      have hlent : rest.length ≤ (header.drop (i + 1)).length := by
        rw [hdrop1]
        rw [hd] at hlen
        simpa using hlen
      have hdisjt : ∀ k ∈ (acc ++ [(h, item)]).map Prod.fst, k ∉ header.drop (i + 1) := by
        rw [hdrop1]
        intro k hk hkt
        simp only [List.map_append, List.mem_append, List.map_cons, List.map_nil,
          List.mem_singleton] at hk
        rcases hk with hk | hk
        · exact hdisj k hk (hd ▸ List.mem_cons_of_mem _ hkt)
        · subst hk
          rw [hd] at hnd
          exact (List.nodup_cons.mp hnd).1 hkt
      simp only [representationLoop, hget, hupd]
      rw [ih (i + 1) (acc ++ [(h, item)]) hlent hndt hdisjt, hdrop1]
      simp [List.zip_cons_cons, List.append_assoc]

/-- A record with more cells than the header (from position `i` on)
makes the representation loop hit `header[item_count]` out of range. -/
theorem representationLoop_overflow (header : List String) (row : List String) (i : Nat)
    (acc : Kwargs) (hlen : (header.drop i).length < row.length) :
    representationLoop header row i acc = .error .indexError := by
  induction row generalizing i acc with
  | nil => simp at hlen
  | cons item rest ih =>
    cases hget : header.get? i with
    | none =>
      simp only [representationLoop]
      rw [hget]
    | some h =>
      simp only [representationLoop, hget]
      apply ih
      obtain ⟨hlt, -⟩ := List.get?_eq_some.mp hget
      simp only [List.length_drop, List.length_cons] at hlen ⊢
      omega

/-- `readLoop` is `buildAll` on the zipped records when every record has
the header's length and the header names are distinct. -/
theorem readLoop_eq_buildAll_zip (header : List String) (dataRows : List (List String))
    (registry : Registry) (hnd : header.Nodup)
    (hlen : ∀ row ∈ dataRows, row.length = header.length) :
    readLoop header dataRows registry =
      buildAll (dataRows.map (fun row => header.zip row)) registry := by
  induction dataRows generalizing registry with
  | nil => simp [readLoop, buildAll]
  | cons row rest ih =>
    have hrow := hlen row (List.mem_cons_self _ _)
    have hrep : representationLoop header row 0 [] = .ok (header.zip row) := by
      have h0 := representationLoop_zip header row 0 [] (by simpa using hrow.le)
        (by simpa using hnd) (by simp)
      simpa using h0
    simp only [readLoop, processRecord, hrep, List.map_cons, buildAll]
    cases hb : ModelBuilder.build registry (header.zip row) with
    | error e => rfl
    | ok reg1 => exact ih reg1 (fun r h => hlen r (List.mem_cons_of_mem _ h))

/-- Splitting the record list splits the read loop at the boundary, the
first error aborting everything after it. -/
theorem readLoop_append (header : List String) (xs ys : List (List String))
    (registry : Registry) :
    readLoop header (xs ++ ys) registry =
      (match readLoop header xs registry with
       | .error e => .error e
       | .ok reg1 => readLoop header ys reg1) := by
  induction xs generalizing registry with
  | nil => simp [readLoop]
  | cons row rest ih =>
    simp only [List.cons_append, readLoop]
    cases processRecord header registry row with
    | error e => rfl
    | ok reg1 => exact ih reg1

/-- C5: `DatasetReader.read` treats the first record as the header,
pairs header names positionally with each later record's cells and
invokes `ModelBuilder.build` once per data record, so the returned
registry is the fold of `ModelBuilder.build` (`buildAll`) over the
zipped data records starting from the empty registry. -/
theorem c5_read_is_fold (header : List String) (dataRows : List (List String))
    (hnd : header.Nodup) (hlen : ∀ row ∈ dataRows, row.length = header.length) :
    DatasetReader.read (header :: dataRows) =
      buildAll (dataRows.map (fun row => header.zip row)) [] := by
  unfold DatasetReader.read
  exact readLoop_eq_buildAll_zip header dataRows [] hnd hlen

/-- Witness for C5 on a one-record source. -/
theorem c5_read_is_fold_witness :
    DatasetReader.read [["name", "mpg"], ["Toyota Corolla", "32"]] =
      buildAll
        (([["Toyota Corolla", "32"]] : List (List String)).map
          (fun row => (["name", "mpg"] : List String).zip row)) [] :=
  c5_read_is_fold ["name", "mpg"] [["Toyota Corolla", "32"]] (by decide) (by decide)

/-- C6: a row whose name field is a single whitespace-delimited token
builds successfully: the manufacturer for that token is resolved or
created and receives a model whose display name is the empty string. -/
theorem c6_single_token_name (registry : Registry) (kwargs : Kwargs)
    (nameField brand : String) (cs : List (Option ModelCharacteristic))
    (hname : dictLookup kwargs "name" = some nameField)
    (hsplit : pySplit nameField = [brand])
    (hcs : buildCharacteristics kwargs = .ok cs) :
    ModelBuilder.build registry kwargs =
      .ok (dictUpdate registry brand
            (((dictLookup registry brand).getD ⟨brand, []⟩).add_model ⟨"", brand, cs⟩)) := by
  rw [build_eq_rowSpec]
  have hrs : rowSpec kwargs = .ok (brand, ⟨"", brand, cs⟩) := by
    unfold rowSpec
    simp [hname, hsplit, hcs]
    rfl
  rw [hrs]

/-- Witness for C6: the row `name = "Tesla"`. -/
theorem c6_single_token_name_witness :
    ModelBuilder.build [] [("name", "Tesla")] =
      .ok (dictUpdate ([] : Registry) "Tesla"
            (((dictLookup ([] : Registry) "Tesla").getD ⟨"Tesla", []⟩).add_model
              ⟨"", "Tesla", []⟩)) :=
  c6_single_token_name [] [("name", "Tesla")] "Tesla" "Tesla" []
    (by decide) (by decide) (by decide)

/-- C7: `DatasetReader.read` is deterministic: two runs on the same
source contents, each from an empty registry, agree on the brand list,
on every brand's model count, and on every model's name and full
attribute content (kind, raw value, unit, rendering). -/
theorem c7_read_deterministic (rows : List (List String)) (r1 r2 : Registry)
    (h1 : DatasetReader.read rows = .ok r1) (h2 : DatasetReader.read rows = .ok r2) :
    r1.map Prod.fst = r2.map Prod.fst ∧
    (∀ b, (dictLookup r1 b).map (fun m => m.models.length) =
          (dictLookup r2 b).map (fun m => m.models.length)) ∧
    (∀ b, (dictLookup r1 b).map (fun m => m.models.map (fun mo =>
            (mo.model_name, mo.characteristics.map (Option.map (fun c =>
              (c, c.get_value, c.get_unit_of_measure, c.get_meaningful_value)))))) =
          (dictLookup r2 b).map (fun m => m.models.map (fun mo =>
            (mo.model_name, mo.characteristics.map (Option.map (fun c =>
              (c, c.get_value, c.get_unit_of_measure, c.get_meaningful_value))))))) := by
  rw [h1] at h2
  cases Except.ok.inj h2
  exact ⟨rfl, fun b => rfl, fun b => rfl⟩

/-- Witness for C7 on a one-record source. -/
theorem c7_read_deterministic_witness :
    DatasetReader.read [["name", "mpg"], ["Toyota Corolla", "32"]] =
      .ok [("Toyota", ⟨"Toyota", [⟨"Corolla", "Toyota", [some (.milesPerGallon "32")]⟩]⟩)] ∧
    (([("Toyota", ⟨"Toyota", [⟨"Corolla", "Toyota", [some (.milesPerGallon "32")]⟩]⟩)] :
        Registry).map Prod.fst) =
      (([("Toyota", ⟨"Toyota", [⟨"Corolla", "Toyota", [some (.milesPerGallon "32")]⟩]⟩)] :
        Registry).map Prod.fst) :=
  ⟨by decide,
   (c7_read_deterministic [["name", "mpg"], ["Toyota Corolla", "32"]]
     [("Toyota", ⟨"Toyota", [⟨"Corolla", "Toyota", [some (.milesPerGallon "32")]⟩]⟩)]
     [("Toyota", ⟨"Toyota", [⟨"Corolla", "Toyota", [some (.milesPerGallon "32")]⟩]⟩)]
     (by decide) (by decide)).1⟩

/-- C8: any failure while processing a data record makes
`DatasetReader.read` abort the whole ingestion and propagate that
failure, regardless of the records that follow: no per-row
skip-and-continue, no partial registry returned. -/
theorem c8_failure_aborts (header : List String) (pre post : List (List String))
    (row : List String) (reg : Registry) (e : PyError)
    (hpre : readLoop header pre [] = .ok reg)
    (hrow : processRecord header reg row = .error e) :
    DatasetReader.read (header :: (pre ++ row :: post)) = .error e := by
  show readLoop header (pre ++ row :: post) [] = .error e
  rw [readLoop_append, hpre]
  simp only [readLoop, hrow]

/-- Witness for C8: an unknown attribute column in the first data
record aborts the run before the following record is reached. -/
theorem c8_failure_aborts_witness :
    readLoop ["name", "bogus"] [] [] = .ok [] ∧
    processRecord ["name", "bogus"] [] ["Toyota Corolla", "3"] =
      .error (.keyError "bogus") ∧
    DatasetReader.read [["name", "bogus"], ["Toyota Corolla", "3"], ["Ford F", "4"]] =
      .error (.keyError "bogus") :=
  ⟨by decide, by decide,
   c8_failure_aborts ["name", "bogus"] [] [["Ford F", "4"]] ["Toyota Corolla", "3"] []
     (.keyError "bogus") (by decide) (by decide)⟩

/-- C9 counterexample: the data record `["30"]` has fewer cells than
the header `["mpg", "name"]`, yet `DatasetReader.read` does not succeed
on it: the name cell was truncated away, so the row build fails with a
`KeyError` on `name`. -/
theorem c9_short_row_counterexample :
    (["30"] : List String).length < (["mpg", "name"] : List String).length ∧
    DatasetReader.read [["mpg", "name"], ["30"]] = .error (.keyError "name") := by
  constructor
  · decide
  · decide

/-- C9 (amended): a data record with more cells than the header makes
`DatasetReader.read` fail with an out-of-range header index lookup; a
record with at most as many cells is silently truncated, with no
validation error, to the positional pairing of its cells with the
leading header names, and the row build then proceeds on just those
fields — failing with a `KeyError` on `name` exactly when the name
column is not among them. -/
theorem c9_row_length_mismatch (header row : List String) :
    (header.length < row.length →
      DatasetReader.read [header, row] = .error .indexError) ∧
    (row.length ≤ header.length → header.Nodup →
      representationLoop header row 0 [] = .ok (header.zip row)) ∧
    (∀ registry kwargs, dictLookup kwargs "name" = none →
      ModelBuilder.build registry kwargs = .error (.keyError "name")) := by
  refine ⟨?_, ?_, ?_⟩
  · intro hlt
    have hov : representationLoop header row 0 [] = .error .indexError := by
      apply representationLoop_overflow
      simpa using hlt
    simp [DatasetReader.read, readLoop, processRecord, hov]
  · intro hle hnd
    have h0 := representationLoop_zip header row 0 [] (by simpa using hle)
      (by simpa using hnd) (by simp)
    simpa using h0
  · intro registry kwargs hname
    unfold ModelBuilder.build
    rw [hname]

/-- Witness for C9: an oversized record fails with an index error; a
short record is truncated to the single pair its one cell forms. -/
theorem c9_row_length_mismatch_witness :
    DatasetReader.read [["name", "mpg"], ["Toyota Corolla", "32", "7"]] =
      .error .indexError ∧
    representationLoop ["name", "mpg"] ["Toyota Corolla"] 0 [] =
      .ok ((["name", "mpg"] : List String).zip ["Toyota Corolla"]) ∧
    ModelBuilder.build [] [("mpg", "30")] = .error (.keyError "name") :=
  ⟨(c9_row_length_mismatch ["name", "mpg"] ["Toyota Corolla", "32", "7"]).1 (by decide),
   (c9_row_length_mismatch ["name", "mpg"] ["Toyota Corolla"]).2.1 (by decide) (by decide),
   (c9_row_length_mismatch ["name", "mpg"] ["Toyota Corolla"]).2.2 [] [("mpg", "30")]
     (by decide)⟩

theorem pySplitAux_ws (cs : List Char) (h : ∀ c ∈ cs, c.isWhitespace) :
    pySplitAux cs [] = [] := by
  induction cs with
  | nil => rfl
  | cons c cs2 ih =>
    have hc : c.isWhitespace = true := h c (List.mem_cons_self _ _)
    simp only [pySplitAux, hc, if_true]
    exact ih (fun c2 h2 => h c2 (List.mem_cons_of_mem _ h2))

/-- An all-whitespace (or empty) string splits to no tokens. -/
theorem pySplit_ws (s : String) (h : ∀ c ∈ s.data, c.isWhitespace) : pySplit s = [] :=
  pySplitAux_ws s.data h

/-- C10: a row whose name field is empty or all whitespace makes
`ModelBuilder.build` fail with an index lookup error at
`name_parts[0]`, before any manufacturer or model is created. -/
theorem c10_blank_name_fails (registry : Registry) (kwargs : Kwargs) (nameField : String)
    (hname : dictLookup kwargs "name" = some nameField)
    (hws : ∀ c ∈ nameField.data, c.isWhitespace) :
    ModelBuilder.build registry kwargs = .error .indexError := by
  have hsplit : pySplit nameField = [] := pySplit_ws nameField hws
  unfold ModelBuilder.build
  simp only [hname, hsplit]

/-- Witness for C10: a name field holding only spaces. -/
theorem c10_blank_name_fails_witness :
    ModelBuilder.build [] [("name", "  "), ("mpg", "30")] = .error .indexError :=
  c10_blank_name_fails [] [("name", "  "), ("mpg", "30")] "  " (by decide) (by decide)
